import Mathlib

/-!
Verification of the Hearthstone ELO matching system (`src/main.go`) against
its natural-language specification.

The Go program is shallowly embedded as follows:
  * the GORM-backed hero table is a `Store := List Hero`, keeping only the
    columns the verified operations read or write (`ID`, `CurPt`; primary
    keys are unique, so `db.Save` is modelled as a pointwise map on the id);
  * each stateful Go function becomes a Lean function threading the store
    and/or a pool queue explicitly;
  * Go `int` is `ℤ`; Go `float64` arithmetic in the rating update is
    modelled over `ℝ` (the concrete values proved about lie far from
    rounding boundaries, so the real-valued and float64 computations agree),
    with Go conversion `int(x)` modelled as truncation toward zero;
  * one iteration of the matching goroutine's infinite loop becomes the
    pure function `matchCycle`, returning the written-back queue and the
    pair dispatched to `gameRoom` (if any).
-/

namespace HES

/-- Constants from the Go source. -/
def ELO_RESULT_WIN : ℤ := 1

def ELO_RESULT_LOSS : ℤ := -1

def ELO_RESULT_TIE : ℤ := 0

def ELO_RATING_DEFAULT : ℤ := 1500

/-- Row of the `heroes` table; only the columns read or written by the
matching and rating code are kept (`ID`, `CurPt`). -/
structure Hero where
  id : ℤ
  curPt : ℤ
deriving DecidableEq

/-- Queued competitor; only the fields read or written by the matching and
rating code are kept (`CurHeroID`, `AllowedDiff`). -/
structure User where
  curHeroID : ℤ
  allowedDiff : ℤ
deriving DecidableEq

/-- The hero table of the sqlite database. -/
abbrev Store := List Hero

/-- Embedding of `db.First(&hero, id)`: fetch the row whose primary key is
`id`, or nothing. -/
def dbFirstHero (store : Store) (hid : ℤ) : Option Hero :=
  store.find? (fun h => h.id == hid)

/-- Embedding of `(user *User) getCurHeroPt`: the current hero's Elo score,
or `ELO_RATING_DEFAULT` when the row is absent (the Go code tests
`hero.ID > 0`, the zero value signalling a missed lookup). -/
def getCurHeroPt (user : User) (store : Store) : ℤ :=
  match dbFirstHero store user.curHeroID with
  | some hero => if 0 < hero.id then hero.curPt else ELO_RATING_DEFAULT
  | none => ELO_RATING_DEFAULT

/-- Embedding of `(user *User) updateCurHeroPt`: write `newPt` to the
current hero's row when it exists, silently do nothing otherwise. -/
def updateCurHeroPt (user : User) (newPt : ℤ) (store : Store) : Store :=
  match dbFirstHero store user.curHeroID with
  | some hero =>
      if 0 < hero.id then
        store.map (fun h => if h.id == hero.id then { h with curPt := newPt } else h)
      else store
  | none => store

/-- Embedding of the Go helper `abs`. -/
def goAbs (x : ℤ) : ℤ :=
  if x < 0 then -x else x

/-- Embedding of `(curUser *User) eloMatch(matchingUser, allowedDiff)`. -/
def eloMatch (curUser matchingUser : User) (allowedDiff : ℤ) (store : Store) : Bool :=
  decide (goAbs (getCurHeroPt curUser store - getCurHeroPt matchingUser store) ≤ allowedDiff)

/-- The K-value as a function of the Elo score; the Go `computeK` returns
the float64 literals 16, 24, 36, which are exact, so the value is kept
in `ℤ` and cast where the update formula needs it. -/
def computeKVal (elo : ℤ) : ℤ :=
  if elo ≥ 2400 then 16
  else if elo ≥ 2100 then 24
  else 36

/-- Embedding of `(curUser *User) computeK`. -/
def computeK (curUser : User) (store : Store) : ℤ :=
  computeKVal (getCurHeroPt curUser store)

/-- Embedding of `addUserToPoll`: reset the allowed difference and append
to the tail of the pool's queue. -/
def addUserToPoll (curUser : User) (queue : List User) : List User :=
  queue ++ [{ curUser with allowedDiff := 0 }]

/-- Embedding of the scan loop inside `startMatching`: index and value of
the first queued competitor matching the probe, if any. -/
def findMatch (store : Store) (firstUser : User) : List User → Option (ℕ × User)
  | [] => none
  | u :: rest =>
      if eloMatch firstUser u firstUser.allowedDiff store then some (0, u)
      else
        match findMatch store firstUser rest with
        | some (i, v) => some (i + 1, v)
        | none => none

/-- Go `int(28800.0 / float64(pt))`: the float64 quotient truncated toward
zero; for the integral operands involved this equals `Int.div` (Go-style
truncated integer division). -/
def allowedDiffIncrement (pt : ℤ) : ℤ :=
  Int.tdiv 28800 pt

/-- One iteration of the loop in `(curPool *MatchingPool) startMatching`,
acting on a snapshot of the queue: when at least two competitors are
queued the head is resliced away, the remaining queue is scanned for the
first match, a found match is removed and the pair dispatched to
`gameRoom`; the queue is then written back.  The Go statement
`firstUser.AllowedDiff += int(28800.0 / float64(firstUser.getCurHeroPt()))`
mutates only the local copy `firstUser`, which is not part of the
written-back queue, so it has no observable effect and does not appear in
the result. -/
def matchCycle (store : Store) (queue : List User) : List User × Option (User × User) :=
  if 2 ≤ queue.length then
    match queue with
    | [] => ([], none)
    | firstUser :: rest =>
        match findMatch store firstUser rest with
        | some (i, matchedUser) => (rest.eraseIdx i, some (firstUser, matchedUser))
        | none => (rest, none)
  else (queue, none)

/-- Expected score `1.0 / (1.0 + math.Pow(10, float64(opponentPt-selfPt)/400))`. -/
noncomputable def expectedScore (selfPt opponentPt : ℤ) : ℝ :=
  1 / (1 + (10 : ℝ) ^ ((((opponentPt - selfPt) : ℤ) : ℝ) / 400))

/-- The `switch result` of `eloCal`: the actual score for a valid result,
nothing for the rejected default branch. -/
noncomputable def actualScore (result : ℤ) : Option ℝ :=
  if result = ELO_RESULT_WIN then some 1
  else if result = ELO_RESULT_TIE then some (1 / 2)
  else if result = ELO_RESULT_LOSS then some 0
  else none

/-- Console output of `eloCal`: the default branch of the switch prints
`Invalid result`; every valid branch prints nothing. -/
def eloCalOutput (result : ℤ) : List String :=
  if result = ELO_RESULT_WIN ∨ result = ELO_RESULT_TIE ∨ result = ELO_RESULT_LOSS then []
  else ["Invalid result"]

/-- Go conversion `int(x)` on a float64: truncation toward zero. -/
noncomputable def goInt (x : ℝ) : ℤ :=
  if 0 ≤ x then ⌊x⌋ else ⌈x⌉

/-- The new score `float64(curUser.getCurHeroPt()) + K*(actualScore-expectedScore)`
converted by `int(newPt)`. -/
noncomputable def eloNewPt (curUser : User) (opponentPt : ℤ) (a : ℝ) (store : Store) : ℤ :=
  goInt (((getCurHeroPt curUser store : ℤ) : ℝ) +
    ((computeK curUser store : ℤ) : ℝ) * (a - expectedScore (getCurHeroPt curUser store) opponentPt))

/-- Embedding of `(curUser *User) eloCal(opponentPt, result)` as a store
transformer: an invalid result returns before any write; a valid result
writes the recomputed score through `updateCurHeroPt`. -/
noncomputable def eloCal (curUser : User) (opponentPt result : ℤ) (store : Store) : Store :=
  match actualScore result with
  | none => store
  | some a => updateCurHeroPt curUser (eloNewPt curUser opponentPt a store) store

/-- Embedding of `gameRoom(user1, user2)`: the winner's update runs first
against the loser's rating read from the initial store; the loser's update
then runs against the winner's rating re-read from the store *after* the
winner's update has been persisted. -/
noncomputable def gameRoom (user1 user2 : User) (store : Store) : Store :=
  let store1 := eloCal user1 (getCurHeroPt user2 store) ELO_RESULT_WIN store
  eloCal user2 (getCurHeroPt user1 store1) ELO_RESULT_LOSS store1

lemma goAbs_sub_comm (a b : ℤ) : goAbs (a - b) = goAbs (b - a) := by
  unfold goAbs
  split_ifs <;> omega

/-- C5: the K-factor is a pure step function of the competitor's own
rating: K = 16 for rating ≥ 2400, K = 24 for 2100 ≤ rating < 2400, K = 36
otherwise; at ratings 2099, 2100, 2399, 2400 it is 36, 24, 24, 16. -/
theorem c5_k_factor_step_function :
    (∀ r : ℤ,
      (2400 ≤ r ∧ computeKVal r = 16) ∨
      (2100 ≤ r ∧ r < 2400 ∧ computeKVal r = 24) ∨
      (r < 2100 ∧ computeKVal r = 36)) ∧
    computeKVal 2099 = 36 ∧ computeKVal 2100 = 24 ∧
    computeKVal 2399 = 24 ∧ computeKVal 2400 = 16 ∧
    ∀ (u : User) (store : Store), computeK u store = computeKVal (getCurHeroPt u store) := by
  refine ⟨?_, by decide, by decide, by decide, by decide, fun u store => rfl⟩
  intro r
  unfold computeKVal
  by_cases h1 : r ≥ 2400
  · left
    rw [if_pos h1]
    exact ⟨h1, rfl⟩
  · by_cases h2 : r ≥ 2100
    · right; left
      rw [if_neg h1, if_pos h2]
      exact ⟨h2, by omega, rfl⟩
    · right; right
      rw [if_neg h1, if_neg h2]
      exact ⟨by omega, rfl⟩

/-- C9: the rating-compatibility test is symmetric in the two competitors:
`eloMatch u v d = eloMatch v u d`, because it compares the absolute value
of the rating difference against the allowed difference. -/
theorem c9_elo_match_symmetric (u v : User) (d : ℤ) (store : Store) :
    eloMatch u v d store = eloMatch v u d store := by
  unfold eloMatch
  rw [goAbs_sub_comm]

/-- C1 (code behaviour at the failing input): with heroes rated 1000 and
1600 and both allowed differences 0, no queued competitor is within the
probe's tolerance, yet after the cycle the probe has been removed from the
queue, and no queued competitor carries the increment
floor(28800/1000) = 28 — contradicting the claim that the probe remains
queued with its allowed difference increased. -/
theorem c1_probe_dropped_when_unmatched :
    matchCycle [⟨1, 1000⟩, ⟨2, 1600⟩] [⟨1, 0⟩, ⟨2, 0⟩] = ([⟨2, 0⟩], none) ∧
    (⟨1, 0⟩ : User) ∉ (matchCycle [⟨1, 1000⟩, ⟨2, 1600⟩] [⟨1, 0⟩, ⟨2, 0⟩]).1 ∧
    allowedDiffIncrement (getCurHeroPt ⟨1, 0⟩ [⟨1, 1000⟩, ⟨2, 1600⟩]) = 28 ∧
    ∀ u ∈ (matchCycle [⟨1, 1000⟩, ⟨2, 1600⟩] [⟨1, 0⟩, ⟨2, 0⟩]).1, u.allowedDiff = 0 := by
  decide

/-- C3 (code behaviour at the failing input): two competitors enqueued via
`addUserToPoll` (allowed difference reset to 0) with ratings 1000 and 2000
cannot match; after one cycle the surviving competitor still has allowed
difference 0, not the claimed floor(28800/2000) = 14 — no queued
competitor's allowed difference ever grows. -/
theorem c3_allowed_diff_never_grows :
    addUserToPoll ⟨2, 9⟩ (addUserToPoll ⟨1, 7⟩ []) = [⟨1, 0⟩, ⟨2, 0⟩] ∧
    matchCycle [⟨1, 1000⟩, ⟨2, 2000⟩] [⟨1, 0⟩, ⟨2, 0⟩] = ([⟨2, 0⟩], none) ∧
    allowedDiffIncrement (getCurHeroPt ⟨2, 0⟩ [⟨1, 1000⟩, ⟨2, 2000⟩]) = 14 ∧
    (⟨2, 0⟩ : User).allowedDiff = 0 := by
  decide

/-- C4: for every result value outside {Win, Tie, Loss} the rating update
engine leaves the store untouched and prints `Invalid result`. -/
theorem c4_invalid_outcome_rejected (user : User) (opponentPt result : ℤ)
    (store : Store)
    (hw : result ≠ ELO_RESULT_WIN) (ht : result ≠ ELO_RESULT_TIE)
    (hl : result ≠ ELO_RESULT_LOSS) :
    eloCal user opponentPt result store = store ∧
    eloCalOutput result = ["Invalid result"] := by
  have hA : actualScore result = none := by
    unfold actualScore
    rw [if_neg hw, if_neg ht, if_neg hl]
  constructor
  · unfold eloCal
    rw [hA]
  · unfold eloCalOutput
    rw [if_neg (by push_neg; exact ⟨hw, ht, hl⟩)]

theorem c4_invalid_outcome_rejected_witness :
    (5 : ℤ) ≠ ELO_RESULT_WIN ∧ (5 : ℤ) ≠ ELO_RESULT_TIE ∧ (5 : ℤ) ≠ ELO_RESULT_LOSS ∧
    (eloCal ⟨1, 0⟩ 1500 5 [⟨1, 1500⟩] = [⟨1, 1500⟩] ∧
      eloCalOutput 5 = ["Invalid result"]) :=
  ⟨by decide, by decide, by decide,
    c4_invalid_outcome_rejected ⟨1, 0⟩ 1500 5 [⟨1, 1500⟩] (by decide) (by decide) (by decide)⟩

/-- C7: when the current hero's row is absent from the store, reading the
rating yields the default 1500 rather than failing, and the matching test
for that competitor proceeds with 1500 as their rating. -/
theorem c7_missing_rating_default (u : User) (store : Store)
    (habs : dbFirstHero store u.curHeroID = none) :
    getCurHeroPt u store = ELO_RATING_DEFAULT ∧
    ELO_RATING_DEFAULT = 1500 ∧
    ∀ (v : User) (d : ℤ),
      eloMatch u v d store = decide (goAbs (1500 - getCurHeroPt v store) ≤ d) := by
  have h : getCurHeroPt u store = ELO_RATING_DEFAULT := by
    unfold getCurHeroPt
    rw [habs]
  refine ⟨h, rfl, fun v d => ?_⟩
  unfold eloMatch
  rw [h]
  rfl

theorem c7_missing_rating_default_witness :
    dbFirstHero [⟨1, 1200⟩] (User.curHeroID ⟨5, 0⟩) = none ∧
    (getCurHeroPt ⟨5, 0⟩ [⟨1, 1200⟩] = ELO_RATING_DEFAULT ∧
      ELO_RATING_DEFAULT = 1500 ∧
      ∀ (v : User) (d : ℤ),
        eloMatch ⟨5, 0⟩ v d [⟨1, 1200⟩] =
          decide (goAbs (1500 - getCurHeroPt v [⟨1, 1200⟩]) ≤ d)) :=
  ⟨by decide, c7_missing_rating_default ⟨5, 0⟩ [⟨1, 1200⟩] (by decide)⟩

/-- C10: when the current hero's row is absent from the store, writing a
rating is a silent no-op — the store is unchanged — and consequently a
valid-outcome `eloCal` call leaves the store unchanged and prints
nothing. -/
theorem c10_update_absent_hero_noop (u : User) (store : Store)
    (habs : dbFirstHero store u.curHeroID = none) :
    (∀ newPt : ℤ, updateCurHeroPt u newPt store = store) ∧
    (∀ opponentPt result : ℤ,
      result = ELO_RESULT_WIN ∨ result = ELO_RESULT_TIE ∨ result = ELO_RESULT_LOSS →
      eloCal u opponentPt result store = store ∧ eloCalOutput result = []) := by
  have hupd : ∀ newPt : ℤ, updateCurHeroPt u newPt store = store := by
    intro newPt
    unfold updateCurHeroPt
    rw [habs]
  refine ⟨hupd, fun opponentPt result hres => ⟨?_, ?_⟩⟩
  · unfold eloCal
    rcases hres with h | h | h <;> subst h <;>
      simp [actualScore, ELO_RESULT_WIN, ELO_RESULT_TIE, ELO_RESULT_LOSS, hupd]
  · unfold eloCalOutput
    rw [if_pos hres]

theorem c10_update_absent_hero_noop_witness :
    dbFirstHero [⟨1, 1300⟩] (User.curHeroID ⟨9, 3⟩) = none ∧
    ((∀ newPt : ℤ, updateCurHeroPt ⟨9, 3⟩ newPt [⟨1, 1300⟩] = [⟨1, 1300⟩]) ∧
      (∀ opponentPt result : ℤ,
        result = ELO_RESULT_WIN ∨ result = ELO_RESULT_TIE ∨ result = ELO_RESULT_LOSS →
        eloCal ⟨9, 3⟩ opponentPt result [⟨1, 1300⟩] = [⟨1, 1300⟩] ∧
          eloCalOutput result = [])) :=
  ⟨by decide, c10_update_absent_hero_noop ⟨9, 3⟩ [⟨1, 1300⟩] (by decide)⟩

lemma findMatch_spec (store : Store) (firstUser : User) :
    ∀ (rest : List User) (i : ℕ) (matchedUser : User),
      findMatch store firstUser rest = some (i, matchedUser) →
      ∃ h : i < rest.length,
        rest.get ⟨i, h⟩ = matchedUser ∧
        eloMatch firstUser matchedUser firstUser.allowedDiff store = true ∧
        ∀ (j : ℕ) (hj : j < rest.length), j < i →
          eloMatch firstUser (rest.get ⟨j, hj⟩) firstUser.allowedDiff store = false := by
  intro rest
  induction rest with
  | nil =>
      intro i m h
      simp [findMatch] at h
  | cons u rest ih =>
      intro i m h
      unfold findMatch at h
      by_cases hb : eloMatch firstUser u firstUser.allowedDiff store = true
      · rw [if_pos hb] at h
        simp only [Option.some.injEq, Prod.mk.injEq] at h
        obtain ⟨rfl, rfl⟩ := h
        exact ⟨Nat.succ_pos _, rfl, hb, fun j hj hji => absurd hji (Nat.not_lt_zero j)⟩
      · rw [if_neg hb] at h
        cases hrec : findMatch store firstUser rest with
        | none =>
            rw [hrec] at h
            cases h
        | some p =>
            obtain ⟨i0, v⟩ := p
            rw [hrec] at h
            simp only [Option.some.injEq, Prod.mk.injEq] at h
            obtain ⟨rfl, rfl⟩ := h
            obtain ⟨hlt, hget, hm, hprev⟩ := ih i0 v hrec
            refine ⟨Nat.succ_lt_succ hlt, ?_, hm, ?_⟩
            · simpa using hget
            · intro j hj hji
              cases j with
              | zero => simpa using Bool.eq_false_iff.mpr (fun hc => hb hc)
              | succ j0 =>
                  have hj0 : j0 < rest.length := by
                    simpa using Nat.lt_of_succ_lt_succ hj
                  have := hprev j0 hj0 (Nat.lt_of_succ_lt_succ hji)
                  simpa using this

lemma findMatch_nonempty (store : Store) (firstUser : User) (rest : List User)
    (i : ℕ) (matchedUser : User)
    (h : findMatch store firstUser rest = some (i, matchedUser)) :
    1 ≤ rest.length := by
  cases rest with
  | nil => simp [findMatch] at h
  | cons u t => simp

/-- C8: when the scan of the remaining queue finds a match, the dispatched
partner of the probe is exactly the first competitor, in arrival order,
whose rating is within the probe's allowed difference: the competitor at
the found index satisfies the tolerance test and every earlier-queued
competitor fails it. -/
theorem c8_first_compatible_partner (store : Store) (firstUser : User)
    (rest : List User) (i : ℕ) (matchedUser : User)
    (hfind : findMatch store firstUser rest = some (i, matchedUser)) :
    (matchCycle store (firstUser :: rest)).2 = some (firstUser, matchedUser) ∧
    ∃ h : i < rest.length,
      rest.get ⟨i, h⟩ = matchedUser ∧
      eloMatch firstUser matchedUser firstUser.allowedDiff store = true ∧
      ∀ (j : ℕ) (hj : j < rest.length), j < i →
        eloMatch firstUser (rest.get ⟨j, hj⟩) firstUser.allowedDiff store = false := by
  refine ⟨?_, findMatch_spec store firstUser rest i matchedUser hfind⟩
  have hlen : 2 ≤ (firstUser :: rest).length := by
    have := findMatch_nonempty store firstUser rest i matchedUser hfind
    simp only [List.length_cons]
    omega
  unfold matchCycle
  rw [if_pos hlen]
  show (match findMatch store firstUser rest with
        | some (i, matchedUser) => (rest.eraseIdx i, some (firstUser, matchedUser))
        | none => (rest, none)).2 = some (firstUser, matchedUser)
  rw [hfind]

theorem c8_first_compatible_partner_witness :
    findMatch [⟨1, 1500⟩, ⟨2, 1600⟩, ⟨3, 1505⟩, ⟨4, 1501⟩] ⟨1, 10⟩
        [⟨2, 0⟩, ⟨3, 0⟩, ⟨4, 0⟩] = some (1, ⟨3, 0⟩) ∧
    ((matchCycle [⟨1, 1500⟩, ⟨2, 1600⟩, ⟨3, 1505⟩, ⟨4, 1501⟩]
        (⟨1, 10⟩ :: [⟨2, 0⟩, ⟨3, 0⟩, ⟨4, 0⟩])).2 = some (⟨1, 10⟩, ⟨3, 0⟩) ∧
      ∃ h : 1 < ([⟨2, 0⟩, ⟨3, 0⟩, ⟨4, 0⟩] : List User).length,
        ([⟨2, 0⟩, ⟨3, 0⟩, ⟨4, 0⟩] : List User).get ⟨1, h⟩ = ⟨3, 0⟩ ∧
        eloMatch ⟨1, 10⟩ ⟨3, 0⟩ (User.allowedDiff ⟨1, 10⟩)
          [⟨1, 1500⟩, ⟨2, 1600⟩, ⟨3, 1505⟩, ⟨4, 1501⟩] = true ∧
        ∀ (j : ℕ) (hj : j < ([⟨2, 0⟩, ⟨3, 0⟩, ⟨4, 0⟩] : List User).length), j < 1 →
          eloMatch ⟨1, 10⟩ (([⟨2, 0⟩, ⟨3, 0⟩, ⟨4, 0⟩] : List User).get ⟨j, hj⟩)
            (User.allowedDiff ⟨1, 10⟩)
            [⟨1, 1500⟩, ⟨2, 1600⟩, ⟨3, 1505⟩, ⟨4, 1501⟩] = false) :=
  ⟨by decide,
    c8_first_compatible_partner [⟨1, 1500⟩, ⟨2, 1600⟩, ⟨3, 1505⟩, ⟨4, 1501⟩] ⟨1, 10⟩
      [⟨2, 0⟩, ⟨3, 0⟩, ⟨4, 0⟩] 1 ⟨3, 0⟩ (by decide)⟩

lemma goInt_intCast (n : ℤ) : goInt (n : ℝ) = n := by
  unfold goInt
  split_ifs with h
  · exact Int.floor_intCast n
  · exact Int.ceil_intCast n

lemma expectedScore_same (r : ℤ) : expectedScore r r = 1 / 2 := by
  unfold expectedScore
  norm_num

lemma rpow_18_400_lower : (1 : ℝ) < (10 : ℝ) ^ ((18 : ℝ) / 400) := by
  rw [Real.one_lt_rpow_iff_of_pos (by norm_num : (0:ℝ) < 10)]
  exact Or.inl ⟨by norm_num, by norm_num⟩

lemma rpow_18_400_upper : (10 : ℝ) ^ ((18 : ℝ) / 400) < 19 / 17 := by
  have hxpow : ((10 : ℝ) ^ ((18 : ℝ) / 400)) ^ (200 : ℕ) = (10 : ℝ) ^ (9 : ℕ) := by
    rw [← Real.rpow_natCast ((10 : ℝ) ^ ((18 : ℝ) / 400)) 200,
        ← Real.rpow_mul (by norm_num : (0:ℝ) ≤ 10),
        ← Real.rpow_natCast 10 9]
    congr 1
    norm_num
  have h200 : ((10 : ℝ) ^ ((18 : ℝ) / 400)) ^ (200 : ℕ) < (19 / 17 : ℝ) ^ (200 : ℕ) := by
    rw [hxpow]
    norm_num
  exact lt_of_pow_lt_pow_left₀ 200 (by norm_num) h200

lemma expectedScore_1500_1518_bounds :
    17 / 36 < expectedScore 1500 1518 ∧ expectedScore 1500 1518 < 1 / 2 := by
  have hxeq : ((1518 - 1500 : ℤ) : ℝ) / 400 = (18 : ℝ) / 400 := by norm_num
  unfold expectedScore
  rw [hxeq]
  have hlow := rpow_18_400_lower
  have hup := rpow_18_400_upper
  constructor
  · have hpos : (0 : ℝ) < 1 + (10 : ℝ) ^ ((18 : ℝ) / 400) := by linarith
    have h1x : (1 : ℝ) + (10 : ℝ) ^ ((18 : ℝ) / 400) < 36 / 17 := by linarith
    calc (17 : ℝ) / 36 = 1 / (36 / 17) := by norm_num
    _ < 1 / (1 + (10 : ℝ) ^ ((18 : ℝ) / 400)) := one_div_lt_one_div_of_lt hpos h1x
  · have h2x : (2 : ℝ) < 1 + (10 : ℝ) ^ ((18 : ℝ) / 400) := by linarith
    exact one_div_lt_one_div_of_lt (by norm_num) h2x

lemma eloCal_win_equal_store :
    eloCal ⟨1, 0⟩ 1500 ELO_RESULT_WIN [⟨1, 1500⟩, ⟨2, 1500⟩] = [⟨1, 1518⟩, ⟨2, 1500⟩] := by
  have ha : actualScore ELO_RESULT_WIN = some 1 := by
    unfold actualScore
    rw [if_pos rfl]
  have hnew : eloNewPt ⟨1, 0⟩ 1500 1 [⟨1, 1500⟩, ⟨2, 1500⟩] = 1518 := by
    have hself : getCurHeroPt ⟨1, 0⟩ [⟨1, 1500⟩, ⟨2, 1500⟩] = 1500 := by decide
    have hK : computeK ⟨1, 0⟩ [⟨1, 1500⟩, ⟨2, 1500⟩] = 36 := by decide
    unfold eloNewPt
    rw [hself, hK, expectedScore_same]
    have hx : ((1500 : ℤ) : ℝ) + ((36 : ℤ) : ℝ) * (1 - 1 / 2) = ((1518 : ℤ) : ℝ) := by
      push_cast
      norm_num
    rw [hx, goInt_intCast]
  unfold eloCal
  rw [ha]
  show updateCurHeroPt ⟨1, 0⟩ (eloNewPt ⟨1, 0⟩ 1500 1 [⟨1, 1500⟩, ⟨2, 1500⟩])
      [⟨1, 1500⟩, ⟨2, 1500⟩] = [⟨1, 1518⟩, ⟨2, 1500⟩]
  rw [hnew]
  decide

lemma eloCal_loss_1518_store :
    eloCal ⟨2, 0⟩ 1518 ELO_RESULT_LOSS [⟨1, 1518⟩, ⟨2, 1500⟩] = [⟨1, 1518⟩, ⟨2, 1482⟩] := by
  have ha : actualScore ELO_RESULT_LOSS = some 0 := by
    unfold actualScore
    rw [if_neg (by decide), if_neg (by decide), if_pos rfl]
  have hnew : eloNewPt ⟨2, 0⟩ 1518 0 [⟨1, 1518⟩, ⟨2, 1500⟩] = 1482 := by
    have hself : getCurHeroPt ⟨2, 0⟩ [⟨1, 1518⟩, ⟨2, 1500⟩] = 1500 := by decide
    have hK : computeK ⟨2, 0⟩ [⟨1, 1518⟩, ⟨2, 1500⟩] = 36 := by decide
    unfold eloNewPt
    rw [hself, hK]
    obtain ⟨hlo, hhi⟩ := expectedScore_1500_1518_bounds
    unfold goInt
    rw [if_pos (by push_cast; linarith)]
    rw [Int.floor_eq_iff]
    constructor
    · push_cast
      linarith
    · push_cast
      linarith
  unfold eloCal
  rw [ha]
  show updateCurHeroPt ⟨2, 0⟩ (eloNewPt ⟨2, 0⟩ 1518 0 [⟨1, 1518⟩, ⟨2, 1500⟩])
      [⟨1, 1518⟩, ⟨2, 1500⟩] = [⟨1, 1518⟩, ⟨2, 1482⟩]
  rw [hnew]
  decide

/-- C2 (code behaviour at the failing input): in `gameRoom` the loser's
rating update is invoked with the winner's rating re-read from the store
after the winner's update has been persisted — at ratings 1500 vs 1500 the
second `eloCal` call receives opponent rating 1518, not the pre-match
1500 — contradicting the claim that both sides receive the pre-match
opponent rating. -/
theorem c2_second_call_gets_post_match_rating :
    gameRoom ⟨1, 0⟩ ⟨2, 0⟩ [⟨1, 1500⟩, ⟨2, 1500⟩] =
      eloCal ⟨2, 0⟩
        (getCurHeroPt ⟨1, 0⟩
          (eloCal ⟨1, 0⟩ (getCurHeroPt ⟨2, 0⟩ [⟨1, 1500⟩, ⟨2, 1500⟩]) ELO_RESULT_WIN
            [⟨1, 1500⟩, ⟨2, 1500⟩]))
        ELO_RESULT_LOSS
        (eloCal ⟨1, 0⟩ (getCurHeroPt ⟨2, 0⟩ [⟨1, 1500⟩, ⟨2, 1500⟩]) ELO_RESULT_WIN
          [⟨1, 1500⟩, ⟨2, 1500⟩]) ∧
    getCurHeroPt ⟨1, 0⟩
        (eloCal ⟨1, 0⟩ (getCurHeroPt ⟨2, 0⟩ [⟨1, 1500⟩, ⟨2, 1500⟩]) ELO_RESULT_WIN
          [⟨1, 1500⟩, ⟨2, 1500⟩]) = 1518 ∧
    getCurHeroPt ⟨1, 0⟩ [⟨1, 1500⟩, ⟨2, 1500⟩] = 1500 ∧
    (1518 : ℤ) ≠ 1500 := by
  have h2 : getCurHeroPt ⟨2, 0⟩ [⟨1, 1500⟩, ⟨2, 1500⟩] = 1500 := by decide
  refine ⟨rfl, ?_, by decide, by decide⟩
  rw [h2, eloCal_win_equal_store]
  decide

/-- C6: for a 1500-vs-1500 match resolved as Win for the first competitor
and Loss for the second, after both rating updates the winner's stored
rating is 1518 and the loser's stored rating is 1482. -/
theorem c6_equal_ratings_win_loss_scenario :
    gameRoom ⟨1, 0⟩ ⟨2, 0⟩ [⟨1, 1500⟩, ⟨2, 1500⟩] = [⟨1, 1518⟩, ⟨2, 1482⟩] ∧
    getCurHeroPt ⟨1, 0⟩ (gameRoom ⟨1, 0⟩ ⟨2, 0⟩ [⟨1, 1500⟩, ⟨2, 1500⟩]) = 1518 ∧
    getCurHeroPt ⟨2, 0⟩ (gameRoom ⟨1, 0⟩ ⟨2, 0⟩ [⟨1, 1500⟩, ⟨2, 1500⟩]) = 1482 := by
  have h2 : getCurHeroPt ⟨2, 0⟩ [⟨1, 1500⟩, ⟨2, 1500⟩] = 1500 := by decide
  have hmain : gameRoom ⟨1, 0⟩ ⟨2, 0⟩ [⟨1, 1500⟩, ⟨2, 1500⟩] = [⟨1, 1518⟩, ⟨2, 1482⟩] := by
    show eloCal ⟨2, 0⟩
        (getCurHeroPt ⟨1, 0⟩
          (eloCal ⟨1, 0⟩ (getCurHeroPt ⟨2, 0⟩ [⟨1, 1500⟩, ⟨2, 1500⟩]) ELO_RESULT_WIN
            [⟨1, 1500⟩, ⟨2, 1500⟩]))
        ELO_RESULT_LOSS
        (eloCal ⟨1, 0⟩ (getCurHeroPt ⟨2, 0⟩ [⟨1, 1500⟩, ⟨2, 1500⟩]) ELO_RESULT_WIN
          [⟨1, 1500⟩, ⟨2, 1500⟩]) = [⟨1, 1518⟩, ⟨2, 1482⟩]
    rw [h2, eloCal_win_equal_store]
    have h1 : getCurHeroPt ⟨1, 0⟩ [⟨1, 1518⟩, ⟨2, 1500⟩] = 1518 := by decide
    rw [h1]
    exact eloCal_loss_1518_store
  refine ⟨hmain, ?_, ?_⟩
  · rw [hmain]
    decide
  · rw [hmain]
    decide

example : getCurHeroPt ⟨1, 0⟩ [⟨1, 1000⟩, ⟨2, 1600⟩] = 1000 := by decide

example : getCurHeroPt ⟨9, 0⟩ [⟨1, 1000⟩] = 1500 := by decide

example :
    matchCycle [⟨1, 1000⟩, ⟨2, 1600⟩] [⟨1, 0⟩, ⟨2, 0⟩] = ([⟨2, 0⟩], none) := by decide

example :
    matchCycle [⟨1, 1500⟩, ⟨2, 1505⟩] [⟨1, 10⟩, ⟨2, 0⟩] =
      ([], some (⟨1, 10⟩, ⟨2, 0⟩)) := by decide

example : allowedDiffIncrement 1000 = 28 := by decide

example : allowedDiffIncrement 1600 = 18 := by decide

end HES
